import Mathlib

/-!
Verification of the `RelationalAuthorization` rule engine
(`tastypie/authorization.py`) against its specification.

The Python module is shallowly embedded below.  Python runtime values are
modelled by the inductive type `Value`; Python exceptions are modelled by the
error type `Err` together with `Except Err` results.  Dynamic features are
modelled as follows:

* attribute lookup (`getattr`) becomes `getattr` over `Value.obj` attribute
  lists, plus a small model of `str` methods (only `upper` is modelled —
  enough for the rules exercised here; `str` has no other plain attributes
  in the model);
* zero-argument callables (bound methods, primitive providers) are modelled
  by `Value.callable r`, where `r` is the value the call returns;
* double-underscore comparison methods (`__eq__`, `__ge__`, ...) are looked
  up and applied by `dunderApply`; a missing method yields `Option.none`,
  which the dispatcher turns into the `LookupError` raised by the source
  (`Err.comparatorNotFound`);
* the `TypeError` raised by calling `None` when `PRIMITIVES.get` misses is
  modelled by `Err.unknownPrimitive`; `AttributeError`/`LookupError` during
  path traversal by `Err.pathNotFound`; iterable-unpacking `ValueError` by
  `Err.valueError`;
* Python dicts are modelled by insertion-ordered association lists
  (`pyDictSet` updates in place, appends fresh keys — CPython 3.7+ dict
  semantics); iterating a dict without `.items()` yields its keys, which is
  modelled faithfully in `validateGo`;
* `datetime` values are modelled as day counts (`Value.int`), the current
  time being the `now` field of the per-call context `Ctx`.
-/

/-- Python exceptions arising in the module. -/
inductive Err where
  | pathNotFound (segment : String)
  | comparatorNotFound (name : String)
  | unknownPrimitive (name : String)
  | typeError
  | valueError
deriving DecidableEq, Repr

/-- Model of Python runtime values. -/
inductive Value where
  | none
  | notImpl
  | bool (b : Bool)
  | int (n : Int)
  | str (s : String)
  | list (xs : List Value)
  | obj (attrs : List (String × Value))
  | callable (ret : Value)
deriving Repr

mutual

/-- Python `==` on modelled values.  `bool` compares with `int` the way
Python coerces `True`/`False` to `1`/`0`; `obj` equality is structural
(modelling objects whose `__eq__` compares attributes); `callable` values
compare by their return value (modelling bound-method equality loosely).  -/
def veq : Value → Value → Bool
  | Value.none, Value.none => true
  | Value.notImpl, Value.notImpl => true
  | Value.bool a, Value.bool b => a == b
  | Value.bool a, Value.int n => (if a then (1 : Int) else 0) == n
  | Value.int n, Value.bool b => n == (if b then (1 : Int) else 0)
  | Value.int a, Value.int b => a == b
  | Value.str a, Value.str b => a == b
  | Value.list as, Value.list bs => veqList as bs
  | Value.obj as, Value.obj bs => veqAttrs as bs
  | Value.callable a, Value.callable b => veq a b
  | _, _ => false

def veqList : List Value → List Value → Bool
  | [], [] => true
  | a :: as, b :: bs => veq a b && veqList as bs
  | _, _ => false

def veqAttrs : List (String × Value) → List (String × Value) → Bool
  | [], [] => true
  | (k1, v1) :: as, (k2, v2) :: bs => k1 == k2 && veq v1 v2 && veqAttrs as bs
  | _, _ => false

end

/-- Python truthiness on modelled values. -/
def truthy : Value → Bool
  | Value.none => false
  | Value.notImpl => true
  | Value.bool b => b
  | Value.int n => n != 0
  | Value.str s => !s.data.isEmpty
  | Value.list xs => !xs.isEmpty
  | Value.obj _ => true
  | Value.callable _ => true

/-- First value bound to a key in an association list (Python dict lookup;
keys are unique in every dict built below). -/
def assocGet {α : Type} : List (String × α) → String → Option α
  | [], _ => Option.none
  | (k, v) :: rest, key => if k = key then some v else assocGet rest key

/-- Uppercase a string character by character (model of `str.upper`). -/
def pyUpper (s : String) : String :=
  String.mk (s.data.map Char.toUpper)

/-- Python `getattr(v, name, <absent>)`.  Instance attributes live on
`Value.obj`; of the built-in types only `str.upper` is modelled (a bound
method, i.e. a `callable` returning the uppercased string). -/
def getattr : Value → String → Option Value
  | Value.obj attrs, name => assocGet attrs name
  | Value.str s, name =>
      if name = "upper" then some (Value.callable (Value.str (pyUpper s))) else Option.none
  | _, _ => Option.none

/-- Python `s.split("__")`: split on non-overlapping occurrences of the
two-character separator, scanning left to right.  `acc` holds the current
segment reversed. -/
def splitDunderAux : List Char → List Char → List (List Char)
  | [], acc => [acc.reverse]
  | c :: rest, acc =>
      match rest with
      | [] => [(c :: acc).reverse]
      | c2 :: rest2 =>
          if c = '_' ∧ c2 = '_' then acc.reverse :: splitDunderAux rest2 []
          else splitDunderAux (c2 :: rest2) (c :: acc)

/-- `s.split("__")` on strings. -/
def splitDunder (s : String) : List String :=
  (splitDunderAux s.data []).map String.mk

example : splitDunder "a__b" = ["a", "b"] := by decide
example : splitDunder "" = [""] := by decide
example : splitDunder "a____b" = ["a", "", "b"] := by decide
example : splitDunder "a___b" = ["a", "_b"] := by decide
example : splitDunder "owner__id" = ["owner", "id"] := by decide

/-- Per-call context: the resolved current user (the source obtains it from
`get_user(bundle.request)`, an external collaborator), the raw request, the
current time (in days, modelling the `datetime` primitives), and the bundled
candidate object `bundle.obj`. -/
structure Ctx where
  user : Value
  request : Value
  now : Int
  obj : Value

/-- A configured rule: a naked `(lhs, rhs)` pair, or a sentinel rule
`[sentinel, (lhs, rhs)]` whose predicate over the current user gates the
rule (the source distinguishes the two by `type(rule) == list`). -/
inductive Rule where
  | naked (lhs rhs : String)
  | sentinel (pred : Value → Bool) (lhs rhs : String)

/-- `self.PRIMITIVES.get(name)` followed by the zero-argument provider call.
Built-ins from the class body (`now`, `yesterday`, `tomorrow`, `last_week`,
`next_week`, modelled as day counts) plus the `user`/`request` bindings set
in `__init__`; constructor-supplied `extra` primitives override
(`PRIMITIVES.update(primitives)`).  Providers are called at resolution time,
which the model reflects by reading `ctx` here. -/
def primsGet (extra : List (String × Value)) (ctx : Ctx) (name : String) : Option Value :=
  match assocGet extra name with
  | some v => some v
  | Option.none =>
      if name = "now" then some (Value.int ctx.now)
      else if name = "yesterday" then some (Value.int (ctx.now - 1))
      else if name = "tomorrow" then some (Value.int (ctx.now + 1))
      else if name = "last_week" then some (Value.int (ctx.now - 7))
      else if name = "next_week" then some (Value.int (ctx.now + 7))
      else if name = "user" then some ctx.user
      else if name = "request" then some ctx.request
      else Option.none

/-- `if callable(child): item = child() else: item = child`. -/
def invoke : Value → Value
  | Value.callable r => r
  | v => v

/-- `introspect(item, lookups)`: attribute traversal that raises
`LookupError` on an absent attribute and invokes callables encountered
along the path. -/
def introspect (item : Value) : List String → Except Err Value
  | [] => Except.ok item
  | lk :: rest =>
      match getattr item lk with
      | Option.none => Except.error (Err.pathNotFound lk)
      | some child => introspect (invoke child) rest

/-- Resolution of a rule's right-hand side:
`PRIMITIVES.get(v.split("__")[0])()` then `introspect(root, v.split("__")[1:])`.
A name with no binding makes `.get` return `None`, and calling `None` raises
`TypeError` — modelled as `Err.unknownPrimitive`. -/
def resolveRhs (extra : List (String × Value)) (ctx : Ctx) (r : String) : Except Err Value :=
  match splitDunder r with
  | [] => Except.error Err.valueError
  | root :: rest =>
      match primsGet extra ctx root with
      | Option.none => Except.error (Err.unknownPrimitive root)
      | some rootItem => introspect rootItem rest

/-- Python dict assignment `d[k] = v`: replaces the value of an existing key
in place (keeping its position), otherwise appends the new key at the end
(CPython 3.7+ insertion-ordered dicts). -/
def pyDictSet {α : Type} : List (String × α) → String → α → List (String × α)
  | [], k, v => [(k, v)]
  | (k', v') :: rest, k, v =>
      if k' = k then (k', v) :: rest else (k', v') :: pyDictSet rest k v

/-- First loop of `normalize_lookups`: build the `lookups` dict, applying
sentinel predicates to the current user and writing `lookups[lhs] = rhs`. -/
def collectLookups (rules : List Rule) (user : Value) : List (String × String) :=
  rules.foldl
    (fun d r =>
      match r with
      | Rule.naked lhs rhs => pyDictSet d lhs rhs
      | Rule.sentinel pred lhs rhs => if pred user then pyDictSet d lhs rhs else d)
    []

/-- Second loop of `normalize_lookups`: resolve every right-hand side in
dict order, building `lookups_out`; the first failure propagates. -/
def resolveAll (extra : List (String × Value)) (ctx : Ctx) :
    List (String × String) → Except Err (List (String × Value))
  | [] => Except.ok []
  | (k, r) :: rest => do
      let v ← resolveRhs extra ctx r
      let out ← resolveAll extra ctx rest
      Except.ok ((k, v) :: out)

/-- `normalize_lookups(rules, bundle)`.  The source stores
`self.user = self.get_user(bundle.request)` and `self.request = bundle.request`;
the model reads both from the explicit context. -/
def normalize_lookups (extra : List (String × Value)) (rules : List Rule) (ctx : Ctx) :
    Except Err (List (String × Value)) :=
  resolveAll extra ctx (collectLookups rules ctx.user)

/-- The leading-segment loop of `lhslookup`:
`for lookup in lookups[:-1]: lhs = getattr(lhs, lookup)` — plain attribute
access (no callable invocation); an absent attribute raises
`AttributeError`, modelled as `Err.pathNotFound`.  Note the source starts
this loop from the *path string* `lhs` itself (the parameter `obj` is never
used); the starting value is whatever the caller passes here. -/
def leadingTraverse (v : Value) : List String → Except Err Value
  | [] => Except.ok v
  | seg :: rest =>
      match getattr v seg with
      | Option.none => Except.error (Err.pathNotFound seg)
      | some child => leadingTraverse child rest

/-- `TRANSLATE_LOOKUPS.get(name, name)` over the class dict
`{'gte': 'ge', 'lte': 'le'}`. -/
def TRANSLATE_LOOKUPS (name : String) : String :=
  if name = "gte" then "ge" else if name = "lte" then "le" else name

/-- `a == b` where `b` may be a Python `bool` (which is an `int`). -/
def toInt? : Value → Option Int
  | Value.int n => some n
  | Value.bool b => some (if b then 1 else 0)
  | _ => Option.none

/-- Relational double-underscore methods of `int`: defined for `lt/le/gt/ge`,
returning `NotImplemented` on a non-numeric right operand (as CPython does). -/
def intRel (dname : String) (a : Int) (r : Value) : Option Value :=
  let f : Option (Int → Int → Bool) :=
    if dname = "__lt__" then some (fun x y => decide (x < y))
    else if dname = "__le__" then some (fun x y => decide (x ≤ y))
    else if dname = "__gt__" then some (fun x y => decide (x > y))
    else if dname = "__ge__" then some (fun x y => decide (x ≥ y))
    else Option.none
  match f with
  | Option.none => Option.none
  | some cmp =>
      some (match toInt? r with
            | some b => Value.bool (cmp a b)
            | Option.none => Value.notImpl)

/-- Lexicographic comparison of char lists (Python string `<`). -/
def charListLt : List Char → List Char → Bool
  | [], [] => false
  | [], _ :: _ => true
  | _ :: _, [] => false
  | a :: as, b :: bs => a < b || (a == b && charListLt as bs)

/-- Is `t` a contiguous leading block of `s`? -/
def leadsWith : List Char → List Char → Bool
  | [], _ => true
  | _ :: _, [] => false
  | a :: as, b :: bs => a == b && leadsWith as bs

/-- Is `t` a contiguous substring of `s` (Python `t in s` on strings)? -/
def hasSub (t : List Char) : List Char → Bool
  | [] => leadsWith t []
  | c :: rest => leadsWith t (c :: rest) || hasSub t rest

/-- Relational double-underscore methods of `str`, plus `__contains__`. -/
def strRel (dname : String) (s : String) (r : Value) : Option Value :=
  if dname = "__contains__" then
    some (match r with
          | Value.str t => Value.bool (hasSub t.data s.data)
          | _ => Value.notImpl)
  else
    let f : Option (String → String → Bool) :=
      if dname = "__lt__" then some (fun x y => charListLt x.data y.data)
      else if dname = "__le__" then some (fun x y => charListLt x.data y.data || x == y)
      else if dname = "__gt__" then some (fun x y => charListLt y.data x.data)
      else if dname = "__ge__" then some (fun x y => charListLt y.data x.data || x == y)
      else Option.none
    match f with
    | Option.none => Option.none
    | some cmp =>
        some (match r with
              | Value.str t => Value.bool (cmp s t)
              | _ => Value.notImpl)

/-- `getattr(L, "__name__", <absent>)(rhs)`: look up a double-underscore
comparison method on the value and apply it.  `__eq__`/`__ne__` exist on
every Python object; relational methods exist on `int`/`bool` (a `bool` is
an `int`) and `str`; `__contains__` exists on `str` and `list`.  A missing
method yields `Option.none`. -/
def dunderApply (L : Value) (dname : String) (r : Value) : Option Value :=
  if dname = "__eq__" then some (Value.bool (veq L r))
  else if dname = "__ne__" then some (Value.bool (!veq L r))
  else
    match L with
    | Value.int a => intRel dname a r
    | Value.bool b => intRel dname (if b then 1 else 0) r
    | Value.str s => strRel dname s r
    | Value.list xs =>
        if dname = "__contains__" then some (Value.bool (xs.any (fun el => veq el r)))
        else Option.none
    | _ => Option.none

/-- The named-comparator step of `lhslookup`: translate the final segment
through `TRANSLATE_LOOKUPS`, wrap it in double underscores, look the method
up on the intermediate value and call it with the rule's resolved value as
the argument; an absent method triggers the default
`lambda u: raise_this(LookupError(lookups[-1] + " not on " + str(type(lhs))))`,
i.e. a `LookupError` naming the *untranslated* segment. -/
def comparatorStep (L : Value) (name : String) (rhs : Value) : Except Err Value :=
  match dunderApply L ("__" ++ TRANSLATE_LOOKUPS name ++ "__") rhs with
  | some v => Except.ok v
  | Option.none => Except.error (Err.comparatorNotFound name)

/-- Python `x in container` (`list` membership by `==`, `str` substring;
anything else raises `TypeError`). -/
def pyIn (x : Value) : Value → Except Err Bool
  | Value.list xs => Except.ok (xs.any (fun el => veq el x))
  | Value.str s =>
      match x with
      | Value.str t => Except.ok (hasSub t.data s.data)
      | _ => Except.error Err.typeError
  | _ => Except.error Err.typeError

/-- What `lhslookup` does after the plain final-segment lookup came back
absent or falsy: the membership keyword check
(`if lookups[-1] in ["in"]: return lhs in rhs`), then the named-comparator
step. -/
def fallThrough (L : Value) (last : String) (rhs : Value) : Except Err Value :=
  if ["in"].contains last then Value.bool <$> pyIn L rhs
  else comparatorStep L last rhs

/-- Dispatch on the final segment:
`lastleg = getattr(lhs, lookups[-1], None); if lastleg: return lastleg == rhs`,
falling through to the membership/comparator steps otherwise. -/
def finalDispatch (L : Value) (last : String) (rhs : Value) : Except Err Value :=
  let lastleg := (getattr L last).getD Value.none
  if truthy lastleg then Except.ok (Value.bool (veq lastleg rhs))
  else fallThrough L last rhs

/-- `lhslookup(self, obj, lhs, rhs)`.  Faithful to the source, including its
slip: the traversal loop rebinds the parameter `lhs`, so the leading
segments are looked up on the *path string* (`Value.str lhs`), and the
candidate `obj` is never consulted. -/
def lhslookup (obj : Value) (lhs : String) (rhs : Value) : Except Err Value :=
  let lookups := splitDunder lhs
  match lookups.getLast? with
  | Option.none => Except.error Err.valueError
  | some last => do
      let L ← leadingTraverse (Value.str lhs) lookups.dropLast
      finalDispatch L last rhs

/-- `self.rules.get(auth_method, {})`. -/
def rulesGet (rulesMap : List (String × List Rule)) (op : String) : List Rule :=
  (assocGet rulesMap op).getD []

/-- The loop of `validate_detail`:
`for lhs, rhs in self.normalize_lookups(...)` iterates the *dict* itself
(there is no `.items()`), so each iteration yields a key, which the tuple
pattern then unpacks as an iterable: a two-character key unpacks into two
one-character strings, any other length raises `ValueError`. -/
def validateGo (obj : Value) : List (String × Value) → Except Err Bool
  | [] => Except.ok true
  | (k, _) :: rest =>
      match k.data with
      | [c1, c2] => do
          let r ← lhslookup obj (String.mk [c1]) (Value.str (String.mk [c2]))
          if truthy r then validateGo obj rest else Except.ok false
      | _ => Except.error Err.valueError

/-- `validate_detail(detail_object, bundle, auth_method)`. -/
def validate_detail (extra : List (String × Value)) (rulesMap : List (String × List Rule))
    (obj : Value) (ctx : Ctx) (op : String) : Except Err Bool := do
  let lkps ← normalize_lookups extra (rulesGet rulesMap op) ctx
  validateGo obj lkps

/-- `create_detail(object_list, bundle) = validate_detail(bundle.obj, bundle, 'create')`. -/
def create_detail (extra : List (String × Value)) (rulesMap : List (String × List Rule))
    (ctx : Ctx) : Except Err Bool :=
  validate_detail extra rulesMap ctx.obj ctx "create"

/-- `update_detail(object_list, bundle) = validate_detail(bundle.obj, bundle, 'update')`. -/
def update_detail (extra : List (String × Value)) (rulesMap : List (String × List Rule))
    (ctx : Ctx) : Except Err Bool :=
  validate_detail extra rulesMap ctx.obj ctx "update"

/-- `delete_detail(object_list, bundle) = validate_detail(bundle.obj, bundle, 'delete')`. -/
def delete_detail (extra : List (String × Value)) (rulesMap : List (String × List Rule))
    (ctx : Ctx) : Except Err Bool :=
  validate_detail extra rulesMap ctx.obj ctx "delete"

example :
    lhslookup (Value.obj [("owner", Value.obj [("id", Value.int 7)])]) "owner__id" (Value.int 7)
      = Except.error (Err.pathNotFound "owner") := by rfl

example :
    leadingTraverse (Value.obj [("owner", Value.obj [("id", Value.int 7)])]) ["owner"]
      = Except.ok (Value.obj [("id", Value.int 7)]) := by rfl

example :
    normalize_lookups [] [Rule.naked "ab" "user"]
        { user := Value.int 7, request := Value.none, now := 0, obj := Value.none }
      = Except.ok [("ab", Value.int 7)] := by rfl

example :
    validate_detail [] [("create", [Rule.naked "ab" "user"])]
        (Value.obj [("ab", Value.int 7)])
        { user := Value.int 7, request := Value.none, now := 0, obj := Value.none } "create"
      = Except.error (Err.comparatorNotFound "a") := by rfl

example :
    update_detail [] [("update", [Rule.naked "owner__id" "user__id"])]
        { user := Value.obj [("id", Value.int 7)], request := Value.none, now := 0,
          obj := Value.obj [("owner", Value.obj [("id", Value.int 3)])] }
      = Except.error Err.valueError := by rfl

example :
    normalize_lookups [] [Rule.naked "a" "bogus__x", Rule.naked "a" "now"]
        { user := Value.none, request := Value.none, now := 0, obj := Value.none }
      = Except.ok [("a", Value.int 0)] := by rfl

example : lhslookup Value.none "upper" (Value.int 0) = Except.ok (Value.bool false) := by rfl

example : lhslookup Value.none "in" (Value.list [Value.str "in"]) = Except.ok (Value.bool true) := by rfl

example : comparatorStep (Value.int 3) "gte" (Value.int 2) = Except.ok (Value.bool true) := by rfl

example : comparatorStep Value.none "zz" (Value.int 0) = Except.error (Err.comparatorNotFound "zz") := by rfl

theorem except_bind_ok {α β : Type} (a : α) (f : α → Except Err β) :
    (Except.ok a >>= f) = f a := rfl

theorem except_bind_err {α β : Type} (e : Err) (f : α → Except Err β) :
    ((Except.error e : Except Err α) >>= f) = Except.error e := rfl

theorem string_mk_ne_of_length {l : List Char} {s : String} (h : l.length ≠ s.data.length) :
    String.mk l ≠ s := by
  intro he
  subst he
  exact h rfl

theorem single_char_ne {c : Char} {s : String} (h : s.data.length ≠ 1) :
    String.mk [c] ≠ s :=
  string_mk_ne_of_length (Ne.symm h)

theorem wrapped_single_ne {c : Char} {s : String} (h : s.data.length ≠ 5) :
    ("__" ++ String.mk [c] ++ "__" : String) ≠ s := by
  intro he
  apply h
  rw [← he]
  rfl

/-- On a one-character path, `lhslookup` always raises: the single segment is
looked up on the path string itself (no one-character string attribute, no
match with the membership keyword, no one-character comparison method), so
the default `LookupError` lambda fires. -/
theorem lhslookup_single_char (obj : Value) (c : Char) (rhs : Value) :
    lhslookup obj (String.mk [c]) rhs
      = Except.error (Err.comparatorNotFound (String.mk [c])) := by
  have hsplit : splitDunder (String.mk [c]) = [String.mk [c]] := rfl
  have h1 : String.mk [c] ≠ "upper" := single_char_ne (by decide)
  have h2 : String.mk [c] ≠ "in" := single_char_ne (by decide)
  have t1 : String.mk [c] ≠ "gte" := single_char_ne (by decide)
  have t2 : String.mk [c] ≠ "lte" := single_char_ne (by decide)
  have e1 : ("__" ++ String.mk [c] ++ "__" : String) ≠ "__eq__" := wrapped_single_ne (by decide)
  have e2 : ("__" ++ String.mk [c] ++ "__" : String) ≠ "__ne__" := wrapped_single_ne (by decide)
  have e3 : ("__" ++ String.mk [c] ++ "__" : String) ≠ "__contains__" := wrapped_single_ne (by decide)
  have e4 : ("__" ++ String.mk [c] ++ "__" : String) ≠ "__lt__" := wrapped_single_ne (by decide)
  have e5 : ("__" ++ String.mk [c] ++ "__" : String) ≠ "__le__" := wrapped_single_ne (by decide)
  have e6 : ("__" ++ String.mk [c] ++ "__" : String) ≠ "__gt__" := wrapped_single_ne (by decide)
  have e7 : ("__" ++ String.mk [c] ++ "__" : String) ≠ "__ge__" := wrapped_single_ne (by decide)
  have h2' : (["in"].contains (String.mk [c])) = false := by
    simp only [List.contains_cons, List.contains_nil, Bool.or_false, beq_iff_eq]
    exact beq_eq_false_iff_ne.mpr h2
  unfold lhslookup
  rw [hsplit]
  simp only [List.getLast?_cons, List.getLast?_nil, Option.getD, List.dropLast_single]
  simp only [leadingTraverse, except_bind_ok, finalDispatch, getattr, if_neg h1,
    Option.getD, truthy, Bool.false_eq_true, if_false, fallThrough, h2',
    comparatorStep, TRANSLATE_LOOKUPS, if_neg t1, if_neg t2, dunderApply,
    if_neg e1, if_neg e2, strRel, if_neg e3, if_neg e4, if_neg e5, if_neg e6, if_neg e7]

/-- The loop of `validate_detail` can only return a boolean on an empty
normalized mapping (and then it is `True`): every nonempty mapping raises,
either a `ValueError` from unpacking a key whose length is not 2, or the
`LookupError` from `lhslookup` on a one-character path. -/
theorem validateGo_no_false (obj : Value) :
    ∀ (l : List (String × Value)) (b : Bool),
      validateGo obj l = Except.ok b → l = [] ∧ b = true := by
  intro l b h
  match l with
  | [] =>
      refine ⟨rfl, ?_⟩
      simp only [validateGo, Except.ok.injEq] at h
      exact h.symm
  | (k, v) :: rest =>
      exfalso
      obtain ⟨data⟩ := k
      match data with
      | [] => simp [validateGo] at h
      | [c1] => simp [validateGo] at h
      | [c1, c2] =>
          simp only [validateGo] at h
          rw [lhslookup_single_char, except_bind_err] at h
          exact Except.noConfusion h
      | c1 :: c2 :: c3 :: tl => simp [validateGo] at h

/-- `validate_detail` never returns `False`: either the normalized mapping is
empty (result `True`) or the buggy iteration raises. -/
theorem validate_detail_no_false (extra : List (String × Value))
    (rulesMap : List (String × List Rule)) (obj : Value) (ctx : Ctx) (op : String) :
    validate_detail extra rulesMap obj ctx op ≠ Except.ok false := by
  intro h
  unfold validate_detail at h
  cases hn : normalize_lookups extra (rulesGet rulesMap op) ctx with
  | error e =>
      rw [hn, except_bind_err] at h
      exact Except.noConfusion h
  | ok lk =>
      rw [hn, except_bind_ok] at h
      obtain ⟨-, hb⟩ := validateGo_no_false obj lk false h
      exact Bool.false_ne_true hb

/-- Claim C1.  The spec says the comparator dispatcher traverses the leading
segments of the left-path starting from the *candidate object*.  The source
rebinds the parameter `lhs` in the traversal loop
(`for lookup in lookups[:-1]: lhs = getattr(lhs, lookup)`), so the traversal
starts from the left-path *string* and the candidate parameter `obj` is never
read.  On a candidate that does carry the `owner.id` chain, the rule
`owner__id` therefore raises `AttributeError` (the string has no attribute
`owner`) even though the claimed traversal would have succeeded. -/
theorem c1_lhslookup_traverses_path_string_not_candidate :
    lhslookup (Value.obj [("owner", Value.obj [("id", Value.int 7)])]) "owner__id" (Value.int 7)
      = Except.error (Err.pathNotFound "owner")
    ∧ getattr (Value.obj [("owner", Value.obj [("id", Value.int 7)])]) "owner"
      = some (Value.obj [("id", Value.int 7)])
    ∧ leadingTraverse (Value.obj [("owner", Value.obj [("id", Value.int 7)])]) ["owner"]
      = Except.ok (Value.obj [("id", Value.int 7)])
    ∧ finalDispatch (Value.obj [("id", Value.int 7)]) "id" (Value.int 7)
      = Except.ok (Value.bool true) :=
  ⟨rfl, rfl, rfl, rfl⟩

/-- Claim C2.  The spec says `validate_detail` returns true iff `satisfies`
holds for every normalized obligation.  The source iterates the normalized
*dict* without `.items()`, so each loop step unpacks a key string into two
one-character strings and never reads the resolved value: on the rule set
`create = [("ab", "user")]` with a candidate whose `ab` attribute equals the
resolved value (so the obligation is satisfied — third conjunct), the call
raises a `LookupError` on the one-character path `a` instead of returning
`True`. -/
theorem c2_validate_detail_unpacks_dict_keys :
    normalize_lookups [] [Rule.naked "ab" "user"]
        { user := Value.int 7, request := Value.none, now := 0,
          obj := Value.obj [("ab", Value.int 7)] }
      = Except.ok [("ab", Value.int 7)]
    ∧ finalDispatch (Value.obj [("ab", Value.int 7)]) "ab" (Value.int 7)
      = Except.ok (Value.bool true)
    ∧ create_detail [] [("create", [Rule.naked "ab" "user"])]
        { user := Value.int 7, request := Value.none, now := 0,
          obj := Value.obj [("ab", Value.int 7)] }
      = Except.error (Err.comparatorNotFound "a") :=
  ⟨rfl, rfl, rfl⟩

/-- Claim C3.  The spec's monotonicity contract presumes `validate_detail`
evaluates the obligations and can return `False` (e.g. the spec's own
example: rules `update = [("owner__id", "user__id")]`, user id 7, candidate
`owner.id == 3` must yield `False`).  On the code, that call raises a
`ValueError` unpacking the nine-character key `owner__id` (first conjunct),
and in general `validate_detail` never returns `False` at all — every call
either returns `True` or raises (second conjunct) — so adding a rule turns
`True` into an exception, never into `False`, and the claimed
false-stays-false monotonicity can never be exercised. -/
theorem c3_validate_detail_cannot_return_false :
    update_detail [] [("update", [Rule.naked "owner__id" "user__id"])]
        { user := Value.obj [("id", Value.int 7)], request := Value.none, now := 0,
          obj := Value.obj [("owner", Value.obj [("id", Value.int 3)])] }
      = Except.error Err.valueError
    ∧ ∀ (extra : List (String × Value)) (rulesMap : List (String × List Rule))
        (obj : Value) (ctx : Ctx) (op : String),
        validate_detail extra rulesMap obj ctx op = Except.ok true
        ∨ ∃ e, validate_detail extra rulesMap obj ctx op = Except.error e := by
  refine ⟨rfl, ?_⟩
  intro extra rulesMap obj ctx op
  cases h : validate_detail extra rulesMap obj ctx op with
  | error e => exact Or.inr ⟨e, rfl⟩
  | ok b =>
      cases b with
      | false => exact absurd h (validate_detail_no_false extra rulesMap obj ctx op)
      | true => exact Or.inl rfl

/-- Splitting the left-path into leading segments and a final segment makes
`lhslookup` the composition of the leading traversal (started, faithfully to
the source, from the path string) and the final-segment dispatch. -/
theorem lhslookup_eq_finalDispatch (obj : Value) (lhs last : String)
    (leading : List String) (L : Value) (rhs : Value)
    (hsplit : splitDunder lhs = leading ++ [last])
    (htrav : leadingTraverse (Value.str lhs) leading = Except.ok L) :
    lhslookup obj lhs rhs = finalDispatch L last rhs := by
  unfold lhslookup
  rw [hsplit]
  simp only [List.getLast?_concat, List.dropLast_concat, htrav, except_bind_ok]

/-- Claim C4.  In the dispatcher, once the leading traversal has produced the
intermediate value `L`, the plain lookup of the final segment decides the
outcome: a present *and truthy* value is compared for equality against the
rule's resolved value (`lastleg == rhs`), while a present-but-falsy value
takes exactly the same fall-through (membership keyword, then named
comparator) as an absent one. -/
theorem c4_final_segment_truthy_equality (obj : Value) (lhs last : String)
    (leading : List String) (L rhs : Value)
    (hsplit : splitDunder lhs = leading ++ [last])
    (htrav : leadingTraverse (Value.str lhs) leading = Except.ok L) :
    (∀ v, getattr L last = some v →
        (truthy v = true → lhslookup obj lhs rhs = Except.ok (Value.bool (veq v rhs)))
        ∧ (truthy v = false → lhslookup obj lhs rhs = fallThrough L last rhs))
    ∧ (getattr L last = Option.none → lhslookup obj lhs rhs = fallThrough L last rhs) := by
  have hl := lhslookup_eq_finalDispatch obj lhs last leading L rhs hsplit htrav
  constructor
  · intro v hv
    constructor
    · intro ht
      rw [hl]
      simp [finalDispatch, hv, ht]
    · intro hf
      rw [hl]
      simp [finalDispatch, hv, hf]
  · intro hn
    rw [hl]
    simp [finalDispatch, hn, truthy]

/-- Witness for C4: the single-segment path `upper` resolves on the path
string itself; `getattr` yields the (truthy) bound method, which is then
compared for equality against the resolved value `0` — giving `False`, not a
fall-through. -/
theorem c4_witness :
    lhslookup Value.none "upper" (Value.int 0) = Except.ok (Value.bool false) := by
  have h := (c4_final_segment_truthy_equality Value.none "upper" "upper" []
      (Value.str "upper") (Value.int 0) rfl rfl).1
      (Value.callable (Value.str "UPPER")) rfl
  exact h.1 rfl

/-- Claim C5.  When the final segment is the membership keyword `in` and the
plain lookup was not truthy, the dispatcher returns `lhs in rhs`, i.e. the
membership test with the intermediate value `L` as the member and the rule's
resolved value as the container — and not the reverse: membership in a list
checks `L` against the list elements (second conjunct), while a non-container
right-hand side is a `TypeError` (third conjunct). -/
theorem c5_membership_direction :
    (∀ (obj L : Value) (lhs : String) (leading : List String) (rhs : Value),
        splitDunder lhs = leading ++ ["in"] →
        leadingTraverse (Value.str lhs) leading = Except.ok L →
        truthy ((getattr L "in").getD Value.none) = false →
        lhslookup obj lhs rhs = Value.bool <$> pyIn L rhs)
    ∧ (∀ (x : Value) (xs : List Value),
        pyIn x (Value.list xs) = Except.ok (xs.any (fun el => veq el x)))
    ∧ (∀ (x : Value) (n : Int), pyIn x (Value.int n) = Except.error Err.typeError) := by
  refine ⟨?_, fun x xs => rfl, fun x n => rfl⟩
  intro obj L lhs leading rhs hsplit htrav hfalsy
  rw [lhslookup_eq_finalDispatch obj lhs "in" leading L rhs hsplit htrav]
  simp [finalDispatch, hfalsy, fallThrough]

/-- Witness for C5: the one-segment path `in` leaves `L` as the path string
`"in"`, whose plain `in` lookup is absent; membership of that string in the
resolved list `["in"]` holds. -/
theorem c5_witness :
    lhslookup Value.none "in" (Value.list [Value.str "in"]) = Except.ok (Value.bool true) := by
  have h := c5_membership_direction.1 Value.none (Value.str "in") "in" []
      (Value.list [Value.str "in"]) rfl rfl rfl
  exact h

/-- Claim C8.  The named-comparator step translates `gte` to `ge` and `lte`
to `le` (first conjunct) and only those (second conjunct); the translated
method is invoked with `L` as the left operand and the resolved value as the
argument, so `gte` behaves exactly as `ge` and `lte` as `le` whenever the
method exists (third and fourth conjuncts), with the operand order visible on
integers (fifth conjunct); a missing method raises the `LookupError` naming
the untranslated segment (last conjunct). -/
theorem c8_translate_and_dispatch :
    (TRANSLATE_LOOKUPS "gte" = "ge" ∧ TRANSLATE_LOOKUPS "lte" = "le")
    ∧ (∀ n : String, n ≠ "gte" → n ≠ "lte" → TRANSLATE_LOOKUPS n = n)
    ∧ (∀ (L r v : Value), dunderApply L "__ge__" r = some v →
        comparatorStep L "gte" r = Except.ok v ∧ comparatorStep L "ge" r = Except.ok v)
    ∧ (∀ (L r v : Value), dunderApply L "__le__" r = some v →
        comparatorStep L "lte" r = Except.ok v ∧ comparatorStep L "le" r = Except.ok v)
    ∧ (∀ a b : Int,
        comparatorStep (Value.int a) "gte" (Value.int b)
          = Except.ok (Value.bool (decide (a ≥ b)))
        ∧ comparatorStep (Value.int a) "lte" (Value.int b)
          = Except.ok (Value.bool (decide (a ≤ b))))
    ∧ (∀ (L : Value) (n : String) (r : Value),
        dunderApply L ("__" ++ TRANSLATE_LOOKUPS n ++ "__") r = Option.none →
        comparatorStep L n r = Except.error (Err.comparatorNotFound n)) := by
  refine ⟨⟨rfl, rfl⟩, ?_, ?_, ?_, fun a b => ⟨rfl, rfl⟩, ?_⟩
  · intro n h1 h2
    simp [TRANSLATE_LOOKUPS, h1, h2]
  · intro L r v h
    constructor
    · show (match dunderApply L "__ge__" r with
            | some v => Except.ok v
            | Option.none => Except.error (Err.comparatorNotFound "gte")) = Except.ok v
      rw [h]
    · show (match dunderApply L "__ge__" r with
            | some v => Except.ok v
            | Option.none => Except.error (Err.comparatorNotFound "ge")) = Except.ok v
      rw [h]
  · intro L r v h
    constructor
    · show (match dunderApply L "__le__" r with
            | some v => Except.ok v
            | Option.none => Except.error (Err.comparatorNotFound "lte")) = Except.ok v
      rw [h]
    · show (match dunderApply L "__le__" r with
            | some v => Except.ok v
            | Option.none => Except.error (Err.comparatorNotFound "le")) = Except.ok v
      rw [h]
  · intro L n r h
    unfold comparatorStep
    rw [h]

/-- Witness for C8: translation leaves `eq` unchanged; `3 gte 2` dispatches
through `__ge__` with `3` on the left; a name with no corresponding method on
`None` raises the lookup error naming the untranslated segment. -/
theorem c8_witness :
    TRANSLATE_LOOKUPS "eq" = "eq"
    ∧ comparatorStep (Value.int 3) "gte" (Value.int 2) = Except.ok (Value.bool true)
    ∧ comparatorStep Value.none "zz" (Value.int 0)
      = Except.error (Err.comparatorNotFound "zz") := by
  obtain ⟨-, h2, h3, -, -, h6⟩ := c8_translate_and_dispatch
  exact ⟨h2 "eq" (by decide) (by decide),
    (h3 (Value.int 3) (Value.int 2) (Value.bool true) rfl).1,
    h6 Value.none "zz" (Value.int 0) rfl⟩

/-- Claim C10.  `self.rules.get(auth_method, {})` defaults a missing
operation entry to the empty rule set, which normalizes to the empty mapping,
so `validate_detail` — and with it `create_detail`, `update_detail` and
`delete_detail` — returns `True`: unconditional allow, not deny. -/
theorem c10_missing_operation_allows (extra : List (String × Value))
    (rulesMap : List (String × List Rule)) (ctx : Ctx) :
    (∀ (obj : Value) (op : String), assocGet rulesMap op = Option.none →
        validate_detail extra rulesMap obj ctx op = Except.ok true)
    ∧ (assocGet rulesMap "create" = Option.none →
        create_detail extra rulesMap ctx = Except.ok true)
    ∧ (assocGet rulesMap "update" = Option.none →
        update_detail extra rulesMap ctx = Except.ok true)
    ∧ (assocGet rulesMap "delete" = Option.none →
        delete_detail extra rulesMap ctx = Except.ok true) := by
  have main : ∀ (obj : Value) (op : String), assocGet rulesMap op = Option.none →
      validate_detail extra rulesMap obj ctx op = Except.ok true := by
    intro obj op h
    simp [validate_detail, rulesGet, h, normalize_lookups, collectLookups, resolveAll,
      validateGo, except_bind_ok]
  exact ⟨main, fun h => main ctx.obj "create" h, fun h => main ctx.obj "update" h,
    fun h => main ctx.obj "delete" h⟩

/-- Witness for C10: an engine configured with no rules at all allows
`create` on an arbitrary candidate. -/
theorem c10_witness :
    create_detail [] []
      { user := Value.none, request := Value.none, now := 0,
        obj := Value.obj [("x", Value.int 1)] } = Except.ok true :=
  (c10_missing_operation_allows [] []
      { user := Value.none, request := Value.none, now := 0,
        obj := Value.obj [("x", Value.int 1)] }).2.1 rfl

/-- The rules that survive sentinel gating, in declaration order (the pairs
the first loop of `normalize_lookups` writes into its dict). -/
def survivors (rules : List Rule) (user : Value) : List (String × String) :=
  rules.filterMap
    (fun r =>
      match r with
      | Rule.naked lhs rhs => some (lhs, rhs)
      | Rule.sentinel pred lhs rhs => if pred user then some (lhs, rhs) else Option.none)

/-- The right-hand side of the *last* pair bound to `k` in a pair list
(the value last-write-wins dict building leaves behind). -/
def lastRhs : List (String × String) → String → Option String
  | [], _ => Option.none
  | (l, r) :: rest, k =>
      match lastRhs rest k with
      | some r' => some r'
      | Option.none => if l = k then some r else Option.none

theorem assocGet_pyDictSet {α : Type} (d : List (String × α)) (k : String) (v : α)
    (key : String) :
    assocGet (pyDictSet d k v) key = if key = k then some v else assocGet d key := by
  induction d with
  | nil =>
      simp only [pyDictSet, assocGet]
      by_cases h : key = k
      · subst h; simp
      · rw [if_neg (fun hh : k = key => h hh.symm), if_neg h]
  | cons p rest ih =>
      obtain ⟨k', v'⟩ := p
      by_cases hk : k' = k
      · subst hk
        simp only [pyDictSet, if_pos rfl, assocGet]
        by_cases h : key = k'
        · subst h; simp
        · rw [if_neg (fun hh : k' = key => h hh.symm), if_neg h,
            if_neg (fun hh : k' = key => h hh.symm)]
      · simp only [pyDictSet, if_neg hk, assocGet]
        by_cases h2 : k' = key
        · have h3 : ¬key = k := fun hh => hk (h2.trans hh)
          rw [if_pos h2, if_neg h3, if_pos h2]
        · rw [if_neg h2, ih]
          by_cases h : key = k
          · simp [h]
          · simp [h, h2]

theorem keys_pyDictSet {α : Type} (d : List (String × α)) (k : String) (v : α) :
    (pyDictSet d k v).map Prod.fst
      = if k ∈ d.map Prod.fst then d.map Prod.fst else d.map Prod.fst ++ [k] := by
  induction d with
  | nil => simp [pyDictSet]
  | cons p rest ih =>
      obtain ⟨k', v'⟩ := p
      by_cases hk : k' = k
      · subst hk; simp [pyDictSet]
      · have hk2 : ¬k = k' := fun hh => hk hh.symm
        simp only [pyDictSet, if_neg hk, List.map_cons, List.mem_cons, hk2, false_or]
        by_cases hm : k ∈ rest.map Prod.fst
        · simp [hm, ih]
        · simp [hm, ih]

theorem nodup_keys_pyDictSet {α : Type} (d : List (String × α)) (k : String) (v : α)
    (h : (d.map Prod.fst).Nodup) : ((pyDictSet d k v).map Prod.fst).Nodup := by
  rw [keys_pyDictSet]
  by_cases hm : k ∈ d.map Prod.fst
  · simpa [hm] using h
  · simp [hm, List.nodup_append, h]

/-- The first loop of `normalize_lookups` is the fold of the dict write over
exactly the surviving rules. -/
theorem collectLookups_eq_survivors_foldl (rules : List Rule) (user : Value) :
    collectLookups rules user
      = (survivors rules user).foldl (fun d p => pyDictSet d p.1 p.2) [] := by
  suffices h : ∀ d : List (String × String),
      rules.foldl
        (fun d r =>
          match r with
          | Rule.naked lhs rhs => pyDictSet d lhs rhs
          | Rule.sentinel pred lhs rhs => if pred user then pyDictSet d lhs rhs else d)
        d
      = (survivors rules user).foldl (fun d p => pyDictSet d p.1 p.2) d by
    exact h []
  induction rules with
  | nil => intro d; simp [survivors]
  | cons r rest ih =>
      intro d
      cases r with
      | naked lhs rhs =>
          simp only [List.foldl_cons, survivors, List.filterMap_cons]
          exact ih (pyDictSet d lhs rhs)
      | sentinel pred lhs rhs =>
          by_cases hp : pred user
          · simp only [List.foldl_cons, survivors, List.filterMap_cons, hp, if_true,
              if_pos hp]
            exact ih (pyDictSet d lhs rhs)
          · simp only [List.foldl_cons, survivors, List.filterMap_cons, hp, if_false,
              if_neg hp]
            exact ih d

/-- Folding last-write-wins dict writes over a pair list: the key maps to the
right-hand side of the last pair carrying it, falling back to the initial
dict. -/
theorem assocGet_foldl_pyDictSet (k : String) :
    ∀ (l : List (String × String)) (d : List (String × String)),
      assocGet (l.foldl (fun d p => pyDictSet d p.1 p.2) d) k
        = (match lastRhs l k with
           | some r => some r
           | Option.none => assocGet d k) := by
  intro l
  induction l with
  | nil => intro d; simp [lastRhs]
  | cons p rest ih =>
      intro d
      obtain ⟨pl, pr⟩ := p
      simp only [List.foldl_cons]
      rw [ih]
      cases hr : lastRhs rest k with
      | some r' => simp [lastRhs, hr]
      | none =>
          simp only [lastRhs, hr]
          rw [assocGet_pyDictSet]
          by_cases h : pl = k
          · simp [h]
          · have h2 : ¬k = pl := fun hh => h hh.symm
            simp [h, h2]

/-- Folding dict writes preserves key uniqueness. -/
theorem nodup_keys_foldl_pyDictSet :
    ∀ (l : List (String × String)) (d : List (String × String)),
      (d.map Prod.fst).Nodup →
      ((l.foldl (fun d p => pyDictSet d p.1 p.2) d).map Prod.fst).Nodup := by
  intro l
  induction l with
  | nil => intro d h; simpa using h
  | cons p rest ih =>
      intro d h
      simp only [List.foldl_cons]
      exact ih _ (nodup_keys_pyDictSet d p.1 p.2 h)

/-- Success of the resolution loop: the output mapping has exactly the keys
of the input (in order), and the value at each key is the successful
resolution of the right-hand side stored there. -/
theorem resolveAll_ok_spec (extra : List (String × Value)) (ctx : Ctx) :
    ∀ (l : List (String × String)) (out : List (String × Value)),
      resolveAll extra ctx l = Except.ok out →
      out.map Prod.fst = l.map Prod.fst
      ∧ ∀ (k : String) (r : String), assocGet l k = some r →
          ∃ v, resolveRhs extra ctx r = Except.ok v ∧ assocGet out k = some v := by
  intro l
  induction l with
  | nil =>
      intro out h
      simp only [resolveAll, Except.ok.injEq] at h
      subst h
      exact ⟨rfl, by intro k r h; simp [assocGet] at h⟩
  | cons p rest ih =>
      intro out h
      obtain ⟨k', r'⟩ := p
      simp only [resolveAll] at h
      cases hv : resolveRhs extra ctx r' with
      | error e => rw [hv, except_bind_err] at h; exact Except.noConfusion h
      | ok v =>
          rw [hv, except_bind_ok] at h
          cases ho : resolveAll extra ctx rest with
          | error e => rw [ho, except_bind_err] at h; exact Except.noConfusion h
          | ok o =>
              rw [ho, except_bind_ok] at h
              obtain ⟨hfst, hpt⟩ := ih o ho
              cases h
              refine ⟨by simpa using hfst, ?_⟩
              intro k r hk
              simp only [assocGet] at hk ⊢
              by_cases hkk : k' = k
              · rw [if_pos hkk] at hk ⊢
                cases hk
                exact ⟨v, hv, rfl⟩
              · rw [if_neg hkk] at hk ⊢
                exact hpt k r hk

/-- Claim C6.  Normalization deduplicates surviving rules by left-path with
last-write-wins semantics: the mapping built by the first loop binds each
left-path to the right-hand side of the *last* surviving rule carrying it
(first conjunct) with one entry per distinct left-path (second conjunct);
when resolution succeeds, the obligations have exactly those left-paths, and
the obligation at each left-path carries the resolved value of that winning
right-hand side (third conjunct). -/
theorem c6_dedup_last_write_wins (rules : List Rule) (extra : List (String × Value))
    (ctx : Ctx) (k : String) :
    (assocGet (collectLookups rules ctx.user) k = lastRhs (survivors rules ctx.user) k)
    ∧ ((collectLookups rules ctx.user).map Prod.fst).Nodup
    ∧ ∀ out, normalize_lookups extra rules ctx = Except.ok out →
        out.map Prod.fst = (collectLookups rules ctx.user).map Prod.fst
        ∧ ∀ r, lastRhs (survivors rules ctx.user) k = some r →
            ∃ v, resolveRhs extra ctx r = Except.ok v ∧ assocGet out k = some v := by
  have h1 : assocGet (collectLookups rules ctx.user) k
      = lastRhs (survivors rules ctx.user) k := by
    rw [collectLookups_eq_survivors_foldl, assocGet_foldl_pyDictSet]
    cases lastRhs (survivors rules ctx.user) k <;> simp [assocGet]
  refine ⟨h1, ?_, ?_⟩
  · rw [collectLookups_eq_survivors_foldl]
    exact nodup_keys_foldl_pyDictSet _ [] (by simp)
  · intro out hout
    obtain ⟨hfst, hpt⟩ := resolveAll_ok_spec extra ctx _ out hout
    refine ⟨hfst, ?_⟩
    intro r hr
    exact hpt k r (h1.trans hr)

/-- Witness for C6: two naked rules on the same left-path `a`; the later
(`now`) wins, there is a single obligation, and it carries the resolved
value of `now`. -/
theorem c6_witness :
    lastRhs (survivors [Rule.naked "a" "user", Rule.naked "a" "now"] (Value.int 5)) "a"
      = some "now"
    ∧ assocGet (collectLookups [Rule.naked "a" "user", Rule.naked "a" "now"] (Value.int 5)) "a"
      = some "now"
    ∧ ∃ v, resolveRhs []
        { user := Value.int 5, request := Value.none, now := 9, obj := Value.none } "now"
          = Except.ok v
        ∧ assocGet [("a", Value.int 9)] "a" = some v := by
  have h := c6_dedup_last_write_wins [Rule.naked "a" "user", Rule.naked "a" "now"] []
      { user := Value.int 5, request := Value.none, now := 9, obj := Value.none } "a"
  refine ⟨rfl, h.1.trans rfl, ?_⟩
  exact (h.2.2 [("a", Value.int 9)] rfl).2 "now" rfl

/-- Claim C7.  A sentinel rule whose predicate rejects the context's user
contributes nothing: the first loop's mapping and the whole normalization
are exactly those of the rule set without it — in particular its left- and
right-hand paths are never written into the mapping nor resolved, whatever
they are.  A sentinel rule whose predicate accepts the user behaves exactly
like the corresponding naked rule. -/
theorem c7_sentinel_gating (pre post : List Rule) (pred : Value → Bool)
    (lhs rhs : String) (extra : List (String × Value)) (ctx : Ctx) :
    (pred ctx.user = false →
        collectLookups (pre ++ Rule.sentinel pred lhs rhs :: post) ctx.user
          = collectLookups (pre ++ post) ctx.user
        ∧ normalize_lookups extra (pre ++ Rule.sentinel pred lhs rhs :: post) ctx
          = normalize_lookups extra (pre ++ post) ctx)
    ∧ (pred ctx.user = true →
        collectLookups (pre ++ Rule.sentinel pred lhs rhs :: post) ctx.user
          = collectLookups (pre ++ Rule.naked lhs rhs :: post) ctx.user
        ∧ normalize_lookups extra (pre ++ Rule.sentinel pred lhs rhs :: post) ctx
          = normalize_lookups extra (pre ++ Rule.naked lhs rhs :: post) ctx) := by
  constructor
  · intro hp
    have hc : collectLookups (pre ++ Rule.sentinel pred lhs rhs :: post) ctx.user
        = collectLookups (pre ++ post) ctx.user := by
      simp [collectLookups, List.foldl_append, List.foldl_cons, hp]
    exact ⟨hc, by rw [normalize_lookups, normalize_lookups, hc]⟩
  · intro hp
    have hc : collectLookups (pre ++ Rule.sentinel pred lhs rhs :: post) ctx.user
        = collectLookups (pre ++ Rule.naked lhs rhs :: post) ctx.user := by
      simp [collectLookups, List.foldl_append, List.foldl_cons, hp]
    exact ⟨hc, by rw [normalize_lookups, normalize_lookups, hc]⟩

/-- Witness for C7: a rejected sentinel rule with an unresolvable right-hand
side (`bogus__x`) contributes nothing — normalization is that of the empty
rule set and succeeds — while the accepted sentinel behaves as the naked
rule. -/
theorem c7_witness :
    normalize_lookups [] [Rule.sentinel (fun _ => false) "a" "bogus__x"]
      { user := Value.int 1, request := Value.none, now := 0, obj := Value.none }
      = Except.ok []
    ∧ normalize_lookups [] [Rule.sentinel (fun _ => true) "a" "now"]
        { user := Value.int 1, request := Value.none, now := 4, obj := Value.none }
      = normalize_lookups [] [Rule.naked "a" "now"]
        { user := Value.int 1, request := Value.none, now := 4, obj := Value.none } := by
  constructor
  · have h := (c7_sentinel_gating [] [] (fun _ => false) "a" "bogus__x" []
        { user := Value.int 1, request := Value.none, now := 0, obj := Value.none }).1 rfl
    exact h.2.trans rfl
  · exact ((c7_sentinel_gating [] [] (fun _ => true) "a" "now" []
      { user := Value.int 1, request := Value.none, now := 4, obj := Value.none }).2 rfl).2

theorem splitDunderAux_ne_nil : ∀ (l acc : List Char), splitDunderAux l acc ≠ [] := by
  intro l
  induction l with
  | nil => intro acc; simp [splitDunderAux]
  | cons c rest ih =>
      intro acc
      cases rest with
      | nil => simp [splitDunderAux]
      | cons c2 rest2 =>
          simp only [splitDunderAux]
          by_cases h : c = '_' ∧ c2 = '_'
          · simp [h]
          · simp only [h, if_false]
            exact ih (c :: acc)

/-- A right-hand side whose first segment has no primitive binding resolves
to the distinct unknown-primitive failure. -/
theorem resolveRhs_unknown (extra : List (String × Value)) (ctx : Ctx) (r : String)
    (hp : primsGet extra ctx ((splitDunder r).headD "") = Option.none) :
    resolveRhs extra ctx r
      = Except.error (Err.unknownPrimitive ((splitDunder r).headD "")) := by
  cases hs : splitDunder r with
  | nil =>
      exfalso
      apply splitDunderAux_ne_nil r.data []
      have hm : (splitDunderAux r.data []).map String.mk = [] := hs
      exact List.map_eq_nil_iff.mp hm
  | cons root rest =>
      rw [hs] at hp
      simp only [List.headD_cons] at hp
      unfold resolveRhs
      rw [hs]
      show (match primsGet extra ctx root with
            | Option.none => Except.error (Err.unknownPrimitive root)
            | some rootItem => introspect rootItem rest)
          = Except.error (Err.unknownPrimitive ((root :: rest).headD ""))
      rw [hp]
      simp

/-- A resolution list containing an entry whose resolution fails makes the
whole loop fail; if everything before it succeeds, the failure is exactly
that entry's error. -/
theorem resolveAll_middle_error (extra : List (String × Value)) (ctx : Ctx)
    (k r : String) (post : List (String × String)) (e : Err)
    (he : resolveRhs extra ctx r = Except.error e) :
    ∀ pre : List (String × String),
      (∃ e', resolveAll extra ctx (pre ++ (k, r) :: post) = Except.error e')
      ∧ ∀ vs, resolveAll extra ctx pre = Except.ok vs →
          resolveAll extra ctx (pre ++ (k, r) :: post) = Except.error e := by
  intro pre
  induction pre with
  | nil =>
      constructor
      · refine ⟨e, ?_⟩
        simp only [List.nil_append, resolveAll]
        rw [he, except_bind_err]
      · intro vs hvs
        simp only [List.nil_append, resolveAll]
        rw [he, except_bind_err]
  | cons p pre' ih =>
      obtain ⟨k', r'⟩ := p
      constructor
      · cases hv : resolveRhs extra ctx r' with
        | error e'' =>
            refine ⟨e'', ?_⟩
            simp only [List.cons_append, resolveAll]
            rw [hv, except_bind_err]
        | ok v =>
            obtain ⟨e', he'⟩ := ih.1
            refine ⟨e', ?_⟩
            simp only [List.cons_append, resolveAll, List.append_eq]
            rw [hv, except_bind_ok, he', except_bind_err]
      · intro vs hvs
        simp only [resolveAll] at hvs
        cases hv : resolveRhs extra ctx r' with
        | error e'' => rw [hv, except_bind_err] at hvs; exact Except.noConfusion hvs
        | ok v =>
            rw [hv, except_bind_ok] at hvs
            cases ho : resolveAll extra ctx pre' with
            | error e'' => rw [ho, except_bind_err] at hvs; exact Except.noConfusion hvs
            | ok o =>
                simp only [List.cons_append, resolveAll, List.append_eq]
                rw [hv, except_bind_ok, ih.2 o ho, except_bind_err]

/-- Claim C9, counterexample.  The claim quantifies over *every* rule whose
right-hand path starts with an unregistered primitive name; but a rule that
is overwritten during left-path deduplication is silently dropped before
resolution, so normalization succeeds even though the rule set contains a
rule whose right-hand path root `bogus` is bound to no primitive. -/
theorem c9_counterexample :
    primsGet []
        { user := Value.none, request := Value.none, now := 0, obj := Value.none } "bogus"
      = Option.none
    ∧ (splitDunder "bogus__x").headD "" = "bogus"
    ∧ normalize_lookups [] [Rule.naked "a" "bogus__x", Rule.naked "a" "now"]
        { user := Value.none, request := Value.none, now := 0, obj := Value.none }
      = Except.ok [("a", Value.int 0)] :=
  ⟨rfl, rfl, rfl⟩

/-- Claim C9 as amended: for every rule that *survives* sentinel gating and
left-path deduplication (i.e. whose pair sits in the mapping the first loop
built), a right-hand path rooted at an unregistered primitive name makes the
whole normalization fail — it neither substitutes a default nor drops the
obligation nor produces a deny — and when every entry before it resolves,
the failure is precisely the distinct unknown-primitive error. -/
theorem c9_amended_unknown_primitive_fatal (extra : List (String × Value)) (ctx : Ctx)
    (rules : List Rule) (pre post : List (String × String)) (k r : String)
    (hc : collectLookups rules ctx.user = pre ++ (k, r) :: post)
    (hp : primsGet extra ctx ((splitDunder r).headD "") = Option.none) :
    (∃ e, normalize_lookups extra rules ctx = Except.error e)
    ∧ ∀ vs, resolveAll extra ctx pre = Except.ok vs →
        normalize_lookups extra rules ctx
          = Except.error (Err.unknownPrimitive ((splitDunder r).headD "")) := by
  have he := resolveRhs_unknown extra ctx r hp
  have h := resolveAll_middle_error extra ctx k r post
      (Err.unknownPrimitive ((splitDunder r).headD "")) he pre
  constructor
  · obtain ⟨e', he'⟩ := h.1
    exact ⟨e', by rw [normalize_lookups, hc]; exact he'⟩
  · intro vs hvs
    rw [normalize_lookups, hc]
    exact h.2 vs hvs

/-- Witness for the amended C9: a single surviving rule rooted at the
unregistered `bogus` primitive makes normalization fail with the distinct
unknown-primitive error. -/
theorem c9_amended_witness :
    normalize_lookups [] [Rule.naked "a" "bogus__x"]
      { user := Value.none, request := Value.none, now := 0, obj := Value.none }
      = Except.error (Err.unknownPrimitive "bogus") := by
  have h := (c9_amended_unknown_primitive_fatal []
      { user := Value.none, request := Value.none, now := 0, obj := Value.none }
      [Rule.naked "a" "bogus__x"] [] [] "a" "bogus__x" rfl rfl).2 [] rfl
  exact h
